import Mathlib

/-
Verification of the ossis logical type system and column-encoding layer.

The definitions below are a shallow embedding of `src/ossis/types.py` and
`src/ossis/tools.py` (plus, where noted, parts modelled from the spec because
their source file is not in the repository snapshot).  Python strings are
modelled as `List Char`, Python `int` as `Int`, raised exceptions as
`Except String`, and the module-level `warnings.warn` channel as an explicit
list of warning strings in the return value.
-/

namespace Ossis

/-- The members of the `ossisTypes` enum (src/ossis/types.py, lines 133-164).
`MISSING_TYPE` models the `_MISSING_TYPE = 0` member. -/
inductive ossisTypes where
  | ARRAY | BLOB | BOOLEAN | DATE | DECIMAL | DOUBLE
  | FLOAT16 | FLOAT32 | FLOAT64
  | INTEGER | INT8 | UINT8 | INT16 | UINT16 | INT32 | UINT32 | INT64 | UINT64
  | INTERVAL | STRUCT | TIMESTAMP | TIME | VARCHAR | VARBINARY
  | NULL | JSONB | MISSING_TYPE
  deriving DecidableEq, Repr

namespace ossisTypes

/-- The Python-side member name of each enum member. -/
def memberName : ossisTypes → String
  | ARRAY => "ARRAY"
  | BLOB => "BLOB"
  | BOOLEAN => "BOOLEAN"
  | DATE => "DATE"
  | DECIMAL => "DECIMAL"
  | DOUBLE => "DOUBLE"
  | FLOAT16 => "FLOAT16"
  | FLOAT32 => "FLOAT32"
  | FLOAT64 => "FLOAT64"
  | INTEGER => "INTEGER"
  | INT8 => "INT8"
  | UINT8 => "UINT8"
  | INT16 => "INT16"
  | UINT16 => "UINT16"
  | INT32 => "INT32"
  | UINT32 => "UINT32"
  | INT64 => "INT64"
  | UINT64 => "UINT64"
  | INTERVAL => "INTERVAL"
  | STRUCT => "STRUCT"
  | TIMESTAMP => "TIMESTAMP"
  | TIME => "TIME"
  | VARCHAR => "VARCHAR"
  | VARBINARY => "VARBINARY"
  | NULL => "NULL"
  | JSONB => "JSONB"
  | MISSING_TYPE => "_MISSING_TYPE"

/-- `ossisTypes.is_numeric` (types.py lines 175-193). -/
def is_numeric (t : ossisTypes) : Bool :=
  t ∈ [INTEGER, DOUBLE, DECIMAL, BOOLEAN, INT8, UINT8, INT16, UINT16,
       INT32, UINT32, INT64, UINT64, FLOAT16, FLOAT32, FLOAT64]

/-- `ossisTypes.is_temporal` (types.py lines 195-197). -/
def is_temporal (t : ossisTypes) : Bool :=
  t ∈ [DATE, TIME, TIMESTAMP]

/-- `ossisTypes.is_large_object` (types.py lines 199-201). -/
def is_large_object (t : ossisTypes) : Bool :=
  t ∈ [VARCHAR, BLOB, VARBINARY]

/-- `ossisTypes.is_complex` (types.py lines 203-204). -/
def is_complex (t : ossisTypes) : Bool :=
  t ∈ [ARRAY, STRUCT, JSONB, INTERVAL]

end ossisTypes

/-- The `type_hierarchy` rank table inside `find_compatible_type`
(types.py lines 679-703); `.get(t, 0)` behaviour gives 0 for absent keys. -/
def type_hierarchy (t : ossisTypes) : Nat :=
  match t with
  | .BOOLEAN => 1
  | .INTEGER | .INT8 | .UINT8 | .INT16 | .UINT16
  | .INT32 | .UINT32 | .INT64 | .UINT64 => 2
  | .DOUBLE | .FLOAT16 | .FLOAT32 | .FLOAT64 => 3
  | .DECIMAL => 4
  | .DATE => 1
  | .TIMESTAMP => 2
  | .BLOB | .VARBINARY => 1
  | .VARCHAR => 2
  | _ => 0

/-- Python `max(types, key=...)` keeps the first element whose key is maximal:
a later element replaces the running maximum only when strictly greater. -/
def maxByHierarchy (hd : ossisTypes) (tl : List ossisTypes) : ossisTypes :=
  tl.foldl (fun acc t => if type_hierarchy t > type_hierarchy acc then t else acc) hd

/-- `find_compatible_type` (types.py lines 655-728). -/
def find_compatible_type (types : List ossisTypes)
    (default : ossisTypes := .VARCHAR) : ossisTypes :=
  match types with
  | [] => .NULL
  | hd :: tl =>
    if (hd :: tl).all (fun t => t = hd) then hd
    else if (hd :: tl).all (fun t => t.is_numeric) then maxByHierarchy hd tl
    else if (hd :: tl).all (fun t => t.is_temporal) then maxByHierarchy hd tl
    else if (hd :: tl).all (fun t => t.is_large_object) then maxByHierarchy hd tl
    else if (hd :: tl).all (fun t =>
        t ∈ [ossisTypes.BLOB, .VARBINARY, .STRUCT, .JSONB, .VARCHAR]) then .VARBINARY
    else if (hd :: tl).any (fun t => t ∈ [ossisTypes.BLOB, .VARBINARY]) then .VARBINARY
    else default

/-- `parse_int8` (types.py lines 554-558): range check on the coerced integer. -/
def parse_int8 (x : Int) : Except String Int :=
  if x < -128 ∨ x > 127 then .error "INT8 value out of range" else .ok x

/-- `parse_uint8` (types.py lines 561-565). -/
def parse_uint8 (x : Int) : Except String Int :=
  if x < 0 ∨ x > 255 then .error "UINT8 value out of range" else .ok x

/-- `parse_int16` (types.py lines 568-572). -/
def parse_int16 (x : Int) : Except String Int :=
  if x < -32768 ∨ x > 32767 then .error "INT16 value out of range" else .ok x

/-- `parse_uint16` (types.py lines 575-579). -/
def parse_uint16 (x : Int) : Except String Int :=
  if x < 0 ∨ x > 65535 then .error "UINT16 value out of range" else .ok x

/-- `parse_int32` (types.py lines 582-586). -/
def parse_int32 (x : Int) : Except String Int :=
  if x < -2147483648 ∨ x > 2147483647 then .error "INT32 value out of range" else .ok x

/-- `parse_uint32` (types.py lines 589-593). -/
def parse_uint32 (x : Int) : Except String Int :=
  if x < 0 ∨ x > 4294967295 then .error "UINT32 value out of range" else .ok x

/-- `parse_int64` (types.py lines 596-600). -/
def parse_int64 (x : Int) : Except String Int :=
  if x < -9223372036854775808 ∨ x > 9223372036854775807 then
    .error "INT64 value out of range"
  else .ok x

/-- `parse_uint64` (types.py lines 603-607). -/
def parse_uint64 (x : Int) : Except String Int :=
  if x < 0 ∨ x > 18446744073709551615 then .error "UINT64 value out of range" else .ok x

/-- C4: every fixed-width integer caster accepts exactly the representable
range, returning the value unchanged, and rejects everything outside it
(int8 on [-128,127], uint8 on [0,255], int16 on [-32768,32767], uint16 on
[0,65535], int32 on [-2^31,2^31-1], uint32 on [0,2^32-1], int64 on
[-2^63,2^63-1], uint64 on [0,2^64-1]); in particular int8 accepts 127 and
rejects 128 and -129, uint8 rejects -1 and 256, uint64 accepts 0 and 2^64-1
and rejects -1 and 2^64. -/
theorem int_casters_accept_exactly_range :
    (∀ x : Int, parse_int8 x = .ok x ↔ -128 ≤ x ∧ x ≤ 127) ∧
    (∀ x : Int, parse_uint8 x = .ok x ↔ 0 ≤ x ∧ x ≤ 255) ∧
    (∀ x : Int, parse_int16 x = .ok x ↔ -32768 ≤ x ∧ x ≤ 32767) ∧
    (∀ x : Int, parse_uint16 x = .ok x ↔ 0 ≤ x ∧ x ≤ 65535) ∧
    (∀ x : Int, parse_int32 x = .ok x ↔ -2147483648 ≤ x ∧ x ≤ 2147483647) ∧
    (∀ x : Int, parse_uint32 x = .ok x ↔ 0 ≤ x ∧ x ≤ 4294967295) ∧
    (∀ x : Int, parse_int64 x = .ok x ↔
      -9223372036854775808 ≤ x ∧ x ≤ 9223372036854775807) ∧
    (∀ x : Int, parse_uint64 x = .ok x ↔ 0 ≤ x ∧ x ≤ 18446744073709551615) := by
  refine ⟨?_, ?_, ?_, ?_, ?_, ?_, ?_, ?_⟩ <;>
    · intro x
      constructor
      · intro h
        by_contra hc
        simp only [parse_int8, parse_uint8, parse_int16, parse_uint16,
          parse_int32, parse_uint32, parse_int64, parse_uint64] at h
        split at h
        · exact Except.noConfusion h
        · rename_i hcond
          omega
      · intro h
        simp only [parse_int8, parse_uint8, parse_int16, parse_uint16,
          parse_int32, parse_uint32, parse_int64, parse_uint64]
        rw [if_neg]
        omega

/-- C5: the promotion resolver is commutative on the enumerated two-element
lists, with results DOUBLE, DECIMAL, text fallback (VARCHAR), and
binary-family fallback (VARBINARY) respectively. -/
theorem find_compatible_type_pairs_commute :
    find_compatible_type [.INTEGER, .DOUBLE] = .DOUBLE ∧
    find_compatible_type [.DOUBLE, .INTEGER] = .DOUBLE ∧
    find_compatible_type [.DOUBLE, .DECIMAL] = .DECIMAL ∧
    find_compatible_type [.DECIMAL, .DOUBLE] = .DECIMAL ∧
    find_compatible_type [.INTEGER, .TIMESTAMP] = .VARCHAR ∧
    find_compatible_type [.TIMESTAMP, .INTEGER] = .VARCHAR ∧
    find_compatible_type [.BLOB, .INTEGER] = .VARBINARY ∧
    find_compatible_type [.INTEGER, .BLOB] = .VARBINARY ∧
    find_compatible_type [.INTEGER, .DOUBLE] = find_compatible_type [.DOUBLE, .INTEGER] ∧
    find_compatible_type [.DOUBLE, .DECIMAL] = find_compatible_type [.DECIMAL, .DOUBLE] ∧
    find_compatible_type [.INTEGER, .TIMESTAMP] =
      find_compatible_type [.TIMESTAMP, .INTEGER] ∧
    find_compatible_type [.BLOB, .INTEGER] = find_compatible_type [.INTEGER, .BLOB] := by
  decide

/-! ## The declaration parser (`_parse_type`, `from_name`, `get_ossis_type`) -/

/-- Python `\w` on the ASCII inputs the grammar uses: letters, digits, `_`. -/
def isWordChar (c : Char) : Bool := c.isAlphanum || c = '_'

/-- Python `\s`: space, tab, newline, carriage return, vertical tab, form feed. -/
def isPySpace (c : Char) : Bool :=
  c = ' ' || c = '\t' || c = '\n' || c = '\r' || c = '\x0b' || c = '\x0c'

/-- The character class `[\w\s\[\]\(\)]` of the `ARRAY<...>` pattern. -/
def isClassChar (c : Char) : Bool :=
  isWordChar c || isPySpace c || c = '[' || c = ']' || c = '(' || c = ')'

/-- Match a literal at the front of the input, returning the remainder. -/
def stripLit : List Char → List Char → Option (List Char)
  | [], rest => some rest
  | _ :: _, [] => none
  | l :: ls, c :: cs => if c = l then stripLit ls cs else none

/-- Numeric value of a digit string, as Python `int` on `\d+` groups. -/
def digitsToNat (ds : List Char) : Nat :=
  ds.foldl (fun n c => 10 * n + (c.toNat - '0'.toNat)) 0

/-- The characters of the regex literal `ARRAY<`. -/
def litARRAY : List Char := ['A', 'R', 'R', 'A', 'Y', '<']

/-- The characters of the regex literal `DECIMAL(`. -/
def litDECIMAL : List Char := ['D', 'E', 'C', 'I', 'M', 'A', 'L', '(']

/-- The characters of the regex literal `VARCHAR`. -/
def litVARCHAR : List Char := ['V', 'A', 'R', 'C', 'H', 'A', 'R']

/-- The characters of the regex literal `VARBINARY`. -/
def litVARBINARY : List Char := ['V', 'A', 'R', 'B', 'I', 'N', 'A', 'R', 'Y']

/-- The characters of the regex literal `BLOB`. -/
def litBLOB : List Char := ['B', 'L', 'O', 'B']

/-- `re.match(r"ARRAY<([\w\s\[\]\(\)]+)>", ...)`: anchored at the start only,
so trailing characters after the closing `>` are ignored.  The group is the
maximal run of class characters; since `>` is not a class character this is
exactly the regex's (backtracking) semantics. -/
def matchARRAY (cs : List Char) : Option (List Char) :=
  match stripLit litARRAY cs with
  | none => none
  | some rest =>
    let body := rest.takeWhile isClassChar
    let rest2 := rest.dropWhile isClassChar
    if body.isEmpty then none
    else
      match rest2 with
      | '>' :: _ => some body
      | _ => none

/-- `re.match(r"DECIMAL\((\d+),\s*(\d+)\)", ...)`: anchored at the start only.
The greedy `\d+` groups are maximal digit runs (the following delimiters are
not digits, so maximal munch coincides with the regex). -/
def matchDECIMAL (cs : List Char) : Option (Nat × Nat) :=
  match stripLit litDECIMAL cs with
  | none => none
  | some r1 =>
    let d1 := r1.takeWhile Char.isDigit
    let r2 := r1.dropWhile Char.isDigit
    if d1.isEmpty then none
    else
      match r2 with
      | ',' :: r3 =>
        let r4 := r3.dropWhile isPySpace
        let d2 := r4.takeWhile Char.isDigit
        let r5 := r4.dropWhile Char.isDigit
        if d2.isEmpty then none
        else
          match r5 with
          | ')' :: _ => some (digitsToNat d1, digitsToNat d2)
          | _ => none
      | _ => none

/-- `re.match(r"LIT\[(\d+)\]", ...)` for `VARCHAR`, `VARBINARY` and `BLOB`:
anchored at the start only, trailing characters ignored. -/
def matchBracketNum (lit : List Char) (cs : List Char) : Option Nat :=
  match stripLit (lit ++ ['[']) cs with
  | none => none
  | some r1 =>
    let d := r1.takeWhile Char.isDigit
    let r2 := r1.dropWhile Char.isDigit
    if d.isEmpty then none
    else
      match r2 with
      | ']' :: _ => some (digitsToNat d)
      | _ => none

/-- The shapes `_parse_type` can return (types.py lines 32-76): a bare base
string, or a base with parameters.  `BLOB[n]` is returned as VARBINARY. -/
inductive ParsedType where
  | base (s : List Char)
  | array (elem : List Char)
  | decimal (p s : Nat)
  | varchar (n : Nat)
  | varbinary (n : Nat)
  deriving DecidableEq, Repr

/-- `_parse_type` (types.py lines 32-76), with the `warnings.warn` channel made
explicit as the second component. -/
def _parse_type (type_str : List Char) : ParsedType × List String :=
  match matchARRAY type_str with
  | some elem => (.array elem, [])
  | none =>
    match matchDECIMAL type_str with
    | some (p, s) => (.decimal p s, [])
    | none =>
      match matchBracketNum litVARCHAR type_str with
      | some n => (.varchar n, [])
      | none =>
        match matchBracketNum litVARBINARY type_str with
        | some n => (.varbinary n, [])
        | none =>
          match matchBracketNum litBLOB type_str with
          | some n =>
            (.varbinary n,
             ["Column type BLOB is deprecated; treating as VARBINARY. Use VARBINARY instead."])
          | none => (.base (type_str.map Char.toUpper), [])

/-- All enum members, as `ossisTypes.__members__` (keyed by member name). -/
def allMembers : List ossisTypes :=
  [.ARRAY, .BLOB, .BOOLEAN, .DATE, .DECIMAL, .DOUBLE, .FLOAT16, .FLOAT32,
   .FLOAT64, .INTEGER, .INT8, .UINT8, .INT16, .UINT16, .INT32, .UINT32,
   .INT64, .UINT64, .INTERVAL, .STRUCT, .TIMESTAMP, .TIME, .VARCHAR,
   .VARBINARY, .NULL, .JSONB, .MISSING_TYPE]

/-- `parsed_types in ossisTypes.__members__` plus `ossisTypes[parsed_types]`. -/
def memberFromName (s : List Char) : Option ossisTypes :=
  allMembers.find? (fun t => t.memberName.toList == s)

/-- The prefix tuple of `_element_type.startswith((...))` (types.py 374-386). -/
def allowedElementStarts : List (List Char) :=
  ["INT".toList, "UINT".toList, "FLOAT".toList, "VARCHAR".toList,
   "VARBINARY".toList, "BOOLEAN".toList, "DATE".toList, "TIMESTAMP".toList,
   "TIME".toList]

/-- `_element_type.startswith(("INT", "UINT", ...))`. -/
def hasAllowedStart (s : List Char) : Bool :=
  allowedElementStarts.any (fun lit => (stripLit lit s).isSome)

/-- The `_type` slot of `from_name`'s result: either an enum member or the
literal `0` sentinel returned for `"0"`/`"VARIANT"`/`"MISSING"` input. -/
inductive TagResult where
  | tag (t : ossisTypes)
  | missingZero
  deriving DecidableEq, Repr

/-- The tuple `(_type, _length, _precision, _scale, _element_type)` returned by
`from_name`, together with the warnings emitted on the way. -/
structure FromNameRes where
  type : TagResult
  length : Option Nat
  precision : Option Nat
  scale : Option Nat
  element_type : Option ossisTypes
  warnings : List String
  deriving DecidableEq, Repr

/-- `ossisTypes.from_name` (types.py lines 329-418) on string input (the
`name is None` early return is not modelled since every call site of interest
passes a string).  Note the branch order copied from the source: the
`parsed_types in ossisTypes.__members__` test at line 348 precedes the
`DOUBLE`/`INTEGER` canonicalization branches at lines 356-361, and `DOUBLE`,
`INTEGER`, `VARBINARY`, `BLOB` are all member names, so those later branches
are unreachable. -/
def from_name (nameStr : List Char) : Except String FromNameRes :=
  let type_name := nameStr.map Char.toUpper
  match _parse_type type_name with
  | (.base b, ws) =>
    if b = "ARRAY".toList then
      .ok ⟨.tag .ARRAY, none, none, none, some .VARCHAR,
           ws ++ ["Column type ARRAY without element_type, defaulting to VARCHAR."]⟩
    else if b = "NUMERIC".toList ∨ b = "BSON".toList ∨ b = "STRUCT".toList ∨
        b = "LIST".toList then
      .error ("Column type " ++ String.mk b ++ " is deprecated.")
    else
      match memberFromName b with
      | some t => .ok ⟨.tag t, none, none, none, none, ws⟩
      | none =>
        if type_name = "0".toList ∨ type_name = "VARIANT".toList ∨
            type_name = "MISSING".toList then
          .ok ⟨.missingZero, none, none, none, none, ws⟩
        else .error ("Unknown column type '" ++ String.mk nameStr ++ "''.")
  | (.array elem, ws) =>
    if hasAllowedStart elem then
      match memberFromName elem with
      | some t => .ok ⟨.tag .ARRAY, none, none, none, some t, ws⟩
      | none => .error ("Unknown column type '" ++ String.mk elem ++ "'.")
    else .error ("Invalid element type '" ++ String.mk elem ++ "' for ARRAY type.")
  | (.decimal p s, ws) =>
    if p > 38 then .error "Invalid precision for DECIMAL type."
    else if s > 38 then .error "Invalid scale for DECIMAL type."
    else if p < s then
      .error "Precision must be equal to or greater than scale for DECIMAL type."
    else .ok ⟨.tag .DECIMAL, none, some p, some s, none, ws⟩
  | (.varchar n, ws) => .ok ⟨.tag .VARCHAR, some n, none, none, none, ws⟩
  | (.varbinary n, ws) => .ok ⟨.tag .VARBINARY, some n, none, none, none, ws⟩

/-- The four instance attributes `_length`, `_precision`, `_scale`,
`_element_type` that `ossisTypes.__init__` initialises to `None`
(types.py lines 166-173). -/
structure Attrs where
  length : Option Nat
  precision : Option Nat
  scale : Option Nat
  element_type : Option ossisTypes
  deriving DecidableEq, Repr

/-- The attribute state of the enum singletons: a journal of the
`object.__setattr__` calls, newest first; absent entries hold the
`__init__` value `None`. -/
def storeGet (st : List (ossisTypes × Attrs)) (t : ossisTypes) : Attrs :=
  match st with
  | [] => ⟨none, none, none, none⟩
  | (t', a) :: rest => if t' = t then a else storeGet rest t

/-- `get_ossis_type` (types.py lines 79-130).  The returned "LogicalType" is
the shared enum member itself; the `object.__setattr__` calls at lines 125-128
mutate that shared member, modelled here by threading the attribute store.
Reading a parameter off any result goes through the current store. -/
def get_ossis_type (type_str : List Char) (st : List (ossisTypes × Attrs)) :
    Except String (ossisTypes × List (ossisTypes × Attrs) × List String) :=
  if type_str.isEmpty then .error "Type string cannot be empty"
  else
    match from_name type_str with
    | .error e => .error e
    | .ok r =>
      match r.type with
      | .missingZero => .error ("Unknown type '" ++ String.mk type_str ++ "'")
      | .tag t =>
        .ok (t, (t, ⟨r.length, r.precision, r.scale, r.element_type⟩) :: st, r.warnings)

/-- The type returned by a successful `get_ossis_type` call. -/
def resultType :
    Except String (ossisTypes × List (ossisTypes × Attrs) × List String) →
      Option ossisTypes
  | .ok (t, _, _) => some t
  | .error _ => none

/-- The attribute store after a `get_ossis_type` call (unchanged on error). -/
def resultStore :
    Except String (ossisTypes × List (ossisTypes × Attrs) × List String) →
      List (ossisTypes × Attrs)
  | .ok (_, st, _) => st
  | .error _ => []

/-- `Except` success test. -/
def exceptIsOk {ε α : Type} : Except ε α → Bool
  | .ok _ => true
  | .error _ => false

/-- C2 counterexample: parsing `DECIMAL(10,2)` attaches precision 10 and
scale 2, but the result is the shared `ossisTypes.DECIMAL` singleton, so a
later parse of bare `DECIMAL` resets the attributes visible through the
earlier result to `None` — the earlier result does not keep its 10 and 2. -/
theorem decimal_params_lost_on_shared_singleton :
    resultType (get_ossis_type "DECIMAL(10,2)".toList []) = some .DECIMAL ∧
    (storeGet (resultStore (get_ossis_type "DECIMAL(10,2)".toList [])) .DECIMAL).precision
      = some 10 ∧
    (storeGet (resultStore (get_ossis_type "DECIMAL(10,2)".toList [])) .DECIMAL).scale
      = some 2 ∧
    resultType (get_ossis_type "DECIMAL".toList
      (resultStore (get_ossis_type "DECIMAL(10,2)".toList []))) = some .DECIMAL ∧
    (storeGet (resultStore (get_ossis_type "DECIMAL".toList
      (resultStore (get_ossis_type "DECIMAL(10,2)".toList [])))) .DECIMAL).precision
      = none ∧
    (storeGet (resultStore (get_ossis_type "DECIMAL".toList
      (resultStore (get_ossis_type "DECIMAL(10,2)".toList [])))) .DECIMAL).scale
      = none := by
  decide

/-- C2 amended: a bare `DECIMAL` parse carries no precision/scale/length/
element-type at the moment it is returned, whatever attribute state the
singletons are in; but because every parse of the same base tag returns the
one shared enum member, a later parse overwrites the parameters seen through
every earlier result — after `DECIMAL(10,2)` then bare `DECIMAL`, the earlier
result shows `None` precision and scale, not 10 and 2. -/
theorem bare_tag_unparameterized_but_aliased (st : List (ossisTypes × Attrs)) :
    resultType (get_ossis_type "DECIMAL".toList st) = some .DECIMAL ∧
    storeGet (resultStore (get_ossis_type "DECIMAL".toList st)) .DECIMAL
      = ⟨none, none, none, none⟩ ∧
    storeGet (resultStore (get_ossis_type "DECIMAL".toList
      (resultStore (get_ossis_type "DECIMAL(10,2)".toList [])))) .DECIMAL
      = ⟨none, none, none, none⟩ := by
  exact ⟨rfl, rfl, by decide⟩

/-- C3 counterexample: `ARRAY<INTERVAL>` parses successfully even though
`INTERVAL` is a complex tag (`is_complex` returns true for it), because the
element check is `startswith("INT", ...)` and `INTERVAL` starts with `INT`;
the claim that every complex element tag fails is therefore false. -/
theorem array_interval_accepted :
    from_name "ARRAY<INTERVAL>".toList
      = .ok ⟨.tag .ARRAY, none, none, none, some .INTERVAL, []⟩ ∧
    ossisTypes.is_complex .INTERVAL = true := by
  exact ⟨rfl, rfl⟩

/-- C3 amended: `ARRAY<ELEM>` (for a base-tag name ELEM) succeeds exactly when
the name starts with one of `INT`, `UINT`, `FLOAT`, `VARCHAR`, `VARBINARY`,
`BOOLEAN`, `DATE`, `TIMESTAMP`, `TIME` — not when ELEM is non-complex: the
complex tag `INTERVAL` is accepted through the `INT` prefix, while the
non-complex tags `DECIMAL`, `DOUBLE`, `BLOB`, `NULL` are rejected with an
invalid-element error. -/
theorem array_element_accepted_iff_allowed_start (t : ossisTypes) :
    exceptIsOk (from_name ("ARRAY<" ++ t.memberName ++ ">").toList)
      = hasAllowedStart t.memberName.toList ∧
    hasAllowedStart "INTERVAL".toList = true ∧
    ossisTypes.is_complex .INTERVAL = true ∧
    hasAllowedStart "DECIMAL".toList = false ∧
    ossisTypes.is_complex .DECIMAL = false ∧
    hasAllowedStart "DOUBLE".toList = false ∧
    hasAllowedStart "BLOB".toList = false ∧
    hasAllowedStart "NULL".toList = false := by
  refine ⟨?_, rfl, rfl, rfl, rfl, rfl, rfl, rfl⟩
  cases t <;> decide

/-- C6 evaluation at the failing inputs: the four removed tags `NUMERIC`,
`STRUCT`, `LIST`, `BSON` do raise fatally, but `DOUBLE` and `INTEGER` are
resolved by the `parsed_types in ossisTypes.__members__` branch (line 348)
before the canonicalization branches at lines 356-361 can run, so they come
back as the deprecated members themselves with no deprecation notice instead
of `FLOAT64`/`INT64` with one. -/
theorem removed_types_fatal_but_canonicalization_shadowed :
    from_name "NUMERIC".toList = .error "Column type NUMERIC is deprecated." ∧
    from_name "STRUCT".toList = .error "Column type STRUCT is deprecated." ∧
    from_name "LIST".toList = .error "Column type LIST is deprecated." ∧
    from_name "BSON".toList = .error "Column type BSON is deprecated." ∧
    from_name "DOUBLE".toList = .ok ⟨.tag .DOUBLE, none, none, none, none, []⟩ ∧
    from_name "INTEGER".toList = .ok ⟨.tag .INTEGER, none, none, none, none, []⟩ := by
  exact ⟨rfl, rfl, rfl, rfl, rfl, rfl⟩

/-- Stripping a literal off an input that starts with it leaves the rest. -/
theorem stripLit_self_append (lit rest : List Char) :
    stripLit lit (lit ++ rest) = some rest := by
  induction lit with
  | nil => rfl
  | cons l ls ih => simp [stripLit, ih]

/-- A maximal-munch run over `x0 :: (xs ++ c :: rest)` where the run elements
satisfy the predicate and `c` does not takes exactly the run. -/
theorem takeWhile_run {p : Char → Bool} {xs : List Char} {x0 : Char}
    (h : ∀ y ∈ x0 :: xs, p y = true) {c : Char} (hc : p c = false)
    (rest : List Char) : (x0 :: (xs ++ c :: rest)).takeWhile p = x0 :: xs := by
  have hx0 : p x0 := h x0 (List.mem_cons_self x0 xs)
  have hxs : ∀ y ∈ xs, p y := fun y hy => h y (List.mem_cons_of_mem x0 hy)
  have hcn : ¬ p c := by simp [hc]
  rw [List.takeWhile_cons_of_pos hx0, List.takeWhile_append_of_pos hxs,
    List.takeWhile_cons_of_neg hcn, List.append_nil]

/-- Companion to `takeWhile_run` for the remainder. -/
theorem dropWhile_run {p : Char → Bool} {xs : List Char} {x0 : Char}
    (h : ∀ y ∈ x0 :: xs, p y = true) {c : Char} (hc : p c = false)
    (rest : List Char) : (x0 :: (xs ++ c :: rest)).dropWhile p = c :: rest := by
  have hx0 : p x0 := h x0 (List.mem_cons_self x0 xs)
  have hxs : ∀ y ∈ xs, p y := fun y hy => h y (List.mem_cons_of_mem x0 hy)
  have hcn : ¬ p c := by simp [hc]
  rw [List.dropWhile_cons_of_pos hx0, List.dropWhile_append_of_pos hxs,
    List.dropWhile_cons_of_neg hcn]

/-- `dropWhile` is the identity when the head already fails the predicate. -/
theorem dropWhile_head_false {p : Char → Bool} {c : Char} (hc : p c = false)
    (cs : List Char) : (c :: cs).dropWhile p = c :: cs := by
  simp [List.dropWhile_cons, hc]

/-- A digit is not a Python whitespace character. -/
theorem isPySpace_eq_false_of_isDigit {c : Char} (h : c.isDigit = true) :
    isPySpace c = false := by
  by_contra hns
  have hs : isPySpace c = true := by
    cases hv : isPySpace c
    · exact absurd hv hns
    · rfl
  simp only [isPySpace, Bool.or_eq_true, decide_eq_true_eq] at hs
  rcases hs with ((((h1 | h2) | h3) | h4) | h5) | h6 <;> subst_vars <;> simp_all

/-- C10: each parameterized declaration matcher is a pure prefix match — any
trailing characters after a well-formed `DECIMAL(p,s)`, `VARCHAR[n]`,
`VARBINARY[n]`, `BLOB[n]` or `ARRAY<ELEM>` declaration are silently ignored
and the parse result is that of the declaration alone; in particular
`DECIMAL(10,2)XYZ` resolves through `from_name` to DECIMAL with precision 10
and scale 2 rather than failing as unknown. -/
theorem parameterized_decls_ignore_trailing :
    (∀ p q suffix : List Char, p ≠ [] → q ≠ [] →
      (∀ c ∈ p, c.isDigit = true) → (∀ c ∈ q, c.isDigit = true) →
      _parse_type ("DECIMAL(".toList ++ p ++ ',' :: (q ++ ')' :: suffix))
        = (.decimal (digitsToNat p) (digitsToNat q), [])) ∧
    (∀ n suffix : List Char, n ≠ [] → (∀ c ∈ n, c.isDigit = true) →
      _parse_type ("VARCHAR[".toList ++ n ++ ']' :: suffix)
        = (.varchar (digitsToNat n), [])) ∧
    (∀ n suffix : List Char, n ≠ [] → (∀ c ∈ n, c.isDigit = true) →
      _parse_type ("VARBINARY[".toList ++ n ++ ']' :: suffix)
        = (.varbinary (digitsToNat n), [])) ∧
    (∀ n suffix : List Char, n ≠ [] → (∀ c ∈ n, c.isDigit = true) →
      _parse_type ("BLOB[".toList ++ n ++ ']' :: suffix)
        = (.varbinary (digitsToNat n),
           ["Column type BLOB is deprecated; treating as VARBINARY. Use VARBINARY instead."])) ∧
    (∀ elem suffix : List Char, elem ≠ [] → (∀ c ∈ elem, isClassChar c = true) →
      _parse_type ("ARRAY<".toList ++ elem ++ '>' :: suffix)
        = (.array elem, [])) ∧
    from_name "DECIMAL(10,2)XYZ".toList
      = .ok ⟨.tag .DECIMAL, none, some 10, some 2, none, []⟩ := by
  refine ⟨?_, ?_, ?_, ?_, ?_, rfl⟩
  · intro p q suffix hp hq hpd hqd
    obtain ⟨p0, ps, rfl⟩ := List.exists_cons_of_ne_nil hp
    obtain ⟨q0, qs, rfl⟩ := List.exists_cons_of_ne_nil hq
    have hq0 : isPySpace q0 = false :=
      isPySpace_eq_false_of_isDigit (hqd q0 (List.mem_cons_self q0 qs))
    rw [(by simp :
      "DECIMAL(".toList ++ (p0 :: ps) ++ ',' :: ((q0 :: qs) ++ ')' :: suffix)
        = 'D' :: 'E' :: 'C' :: 'I' :: 'M' :: 'A' :: 'L' :: '(' ::
            (p0 :: (ps ++ ',' :: (q0 :: (qs ++ ')' :: suffix)))))]
    have harr : matchARRAY ('D' :: 'E' :: 'C' :: 'I' :: 'M' :: 'A' :: 'L' :: '(' ::
        (p0 :: (ps ++ ',' :: (q0 :: (qs ++ ')' :: suffix))))) = none := by
      simp [matchARRAY, litARRAY, stripLit]
    have hdec : matchDECIMAL ('D' :: 'E' :: 'C' :: 'I' :: 'M' :: 'A' :: 'L' :: '(' ::
        (p0 :: (ps ++ ',' :: (q0 :: (qs ++ ')' :: suffix)))))
          = some (digitsToNat (p0 :: ps), digitsToNat (q0 :: qs)) := by
      simp only [matchDECIMAL, litDECIMAL, stripLit, if_pos, reduceIte]
      rw [takeWhile_run hpd (by decide), dropWhile_run hpd (by decide)]
      simp only [List.isEmpty_cons, Bool.false_eq_true, if_false]
      rw [dropWhile_head_false hq0]
      rw [takeWhile_run hqd (by decide), dropWhile_run hqd (by decide)]
      simp
    unfold _parse_type
    rw [harr, hdec]
  · intro n suffix hn hnd
    obtain ⟨n0, ns, rfl⟩ := List.exists_cons_of_ne_nil hn
    rw [(by simp : "VARCHAR[".toList ++ (n0 :: ns) ++ ']' :: suffix
        = 'V' :: 'A' :: 'R' :: 'C' :: 'H' :: 'A' :: 'R' :: '[' ::
            (n0 :: (ns ++ ']' :: suffix)))]
    have harr : matchARRAY ('V' :: 'A' :: 'R' :: 'C' :: 'H' :: 'A' :: 'R' :: '[' ::
        (n0 :: (ns ++ ']' :: suffix))) = none := by
      simp [matchARRAY, litARRAY, stripLit]
    have hdec : matchDECIMAL ('V' :: 'A' :: 'R' :: 'C' :: 'H' :: 'A' :: 'R' :: '[' ::
        (n0 :: (ns ++ ']' :: suffix))) = none := by
      simp [matchDECIMAL, litDECIMAL, stripLit]
    have hvc : matchBracketNum litVARCHAR
        ('V' :: 'A' :: 'R' :: 'C' :: 'H' :: 'A' :: 'R' :: '[' ::
          (n0 :: (ns ++ ']' :: suffix))) = some (digitsToNat (n0 :: ns)) := by
      simp only [matchBracketNum, litVARCHAR, List.cons_append, List.nil_append,
        stripLit, if_pos, reduceIte]
      rw [takeWhile_run hnd (by decide), dropWhile_run hnd (by decide)]
      simp
    unfold _parse_type
    rw [harr, hdec, hvc]
  · intro n suffix hn hnd
    obtain ⟨n0, ns, rfl⟩ := List.exists_cons_of_ne_nil hn
    rw [(by simp : "VARBINARY[".toList ++ (n0 :: ns) ++ ']' :: suffix
        = 'V' :: 'A' :: 'R' :: 'B' :: 'I' :: 'N' :: 'A' :: 'R' :: 'Y' :: '[' ::
            (n0 :: (ns ++ ']' :: suffix)))]
    have harr : matchARRAY ('V' :: 'A' :: 'R' :: 'B' :: 'I' :: 'N' :: 'A' :: 'R' ::
        'Y' :: '[' :: (n0 :: (ns ++ ']' :: suffix))) = none := by
      simp [matchARRAY, litARRAY, stripLit]
    have hdec : matchDECIMAL ('V' :: 'A' :: 'R' :: 'B' :: 'I' :: 'N' :: 'A' :: 'R' ::
        'Y' :: '[' :: (n0 :: (ns ++ ']' :: suffix))) = none := by
      simp [matchDECIMAL, litDECIMAL, stripLit]
    have hvc : matchBracketNum litVARCHAR
        ('V' :: 'A' :: 'R' :: 'B' :: 'I' :: 'N' :: 'A' :: 'R' :: 'Y' :: '[' ::
          (n0 :: (ns ++ ']' :: suffix))) = none := by
      simp [matchBracketNum, litVARCHAR, stripLit]
    have hvb : matchBracketNum litVARBINARY
        ('V' :: 'A' :: 'R' :: 'B' :: 'I' :: 'N' :: 'A' :: 'R' :: 'Y' :: '[' ::
          (n0 :: (ns ++ ']' :: suffix))) = some (digitsToNat (n0 :: ns)) := by
      simp only [matchBracketNum, litVARBINARY, List.cons_append, List.nil_append,
        stripLit, if_pos, reduceIte]
      rw [takeWhile_run hnd (by decide), dropWhile_run hnd (by decide)]
      simp
    unfold _parse_type
    rw [harr, hdec, hvc, hvb]
  · intro n suffix hn hnd
    obtain ⟨n0, ns, rfl⟩ := List.exists_cons_of_ne_nil hn
    rw [(by simp : "BLOB[".toList ++ (n0 :: ns) ++ ']' :: suffix
        = 'B' :: 'L' :: 'O' :: 'B' :: '[' :: (n0 :: (ns ++ ']' :: suffix)))]
    have harr : matchARRAY ('B' :: 'L' :: 'O' :: 'B' :: '[' ::
        (n0 :: (ns ++ ']' :: suffix))) = none := by
      simp [matchARRAY, litARRAY, stripLit]
    have hdec : matchDECIMAL ('B' :: 'L' :: 'O' :: 'B' :: '[' ::
        (n0 :: (ns ++ ']' :: suffix))) = none := by
      simp [matchDECIMAL, litDECIMAL, stripLit]
    have hvc : matchBracketNum litVARCHAR ('B' :: 'L' :: 'O' :: 'B' :: '[' ::
        (n0 :: (ns ++ ']' :: suffix))) = none := by
      simp [matchBracketNum, litVARCHAR, stripLit]
    have hvb : matchBracketNum litVARBINARY ('B' :: 'L' :: 'O' :: 'B' :: '[' ::
        (n0 :: (ns ++ ']' :: suffix))) = none := by
      simp [matchBracketNum, litVARBINARY, stripLit]
    have hbl : matchBracketNum litBLOB ('B' :: 'L' :: 'O' :: 'B' :: '[' ::
        (n0 :: (ns ++ ']' :: suffix))) = some (digitsToNat (n0 :: ns)) := by
      simp only [matchBracketNum, litBLOB, List.cons_append, List.nil_append,
        stripLit, if_pos, reduceIte]
      rw [takeWhile_run hnd (by decide), dropWhile_run hnd (by decide)]
      simp
    unfold _parse_type
    rw [harr, hdec, hvc, hvb, hbl]
  · intro elem suffix he hec
    obtain ⟨e0, es, rfl⟩ := List.exists_cons_of_ne_nil he
    rw [(by simp : "ARRAY<".toList ++ (e0 :: es) ++ '>' :: suffix
        = 'A' :: 'R' :: 'R' :: 'A' :: 'Y' :: '<' :: (e0 :: (es ++ '>' :: suffix)))]
    have harr : matchARRAY ('A' :: 'R' :: 'R' :: 'A' :: 'Y' :: '<' ::
        (e0 :: (es ++ '>' :: suffix))) = some (e0 :: es) := by
      simp only [matchARRAY, litARRAY, stripLit, if_pos, reduceIte]
      rw [takeWhile_run hec (by decide), dropWhile_run hec (by decide)]
      simp
    unfold _parse_type
    rw [harr]

/-- C10 witness: `VARCHAR[255]abc` parses as `VARCHAR[255]`, by the theorem
instantiated at a concrete length and suffix. -/
theorem parameterized_decls_ignore_trailing_witness :
    _parse_type ("VARCHAR[".toList ++ ['2', '5', '5'] ++ ']' :: "abc".toList)
      = (.varchar (digitsToNat ['2', '5', '5']), []) :=
  parameterized_decls_ignore_trailing.2.1 ['2', '5', '5'] "abc".toList
    (by decide) (by decide)

/-! ## The fast temporal parser (`parse_iso`, tools.py lines 181-271) -/

/-- A naive (timezone-free) `datetime.datetime` value. -/
structure DateTime where
  year : Nat
  month : Nat
  day : Nat
  hour : Nat
  minute : Nat
  second : Nat
  microsecond : Nat
  deriving DecidableEq, Repr

/-- A `datetime.date` value. -/
structure Date where
  year : Nat
  month : Nat
  day : Nat
  deriving DecidableEq, Repr

/-- Gregorian leap-year test, as `datetime` uses. -/
def isLeap (y : Nat) : Bool := (y % 4 = 0 && y % 100 ≠ 0) || y % 400 = 0

/-- Days in a month of the proleptic Gregorian calendar. -/
def daysInMonth (y m : Nat) : Nat :=
  if m = 2 then (if isLeap y then 29 else 28)
  else if m = 4 ∨ m = 6 ∨ m = 9 ∨ m = 11 then 30
  else 31

/-- The `datetime.datetime(...)` constructor: range-checks every field
(year 1..9999, month 1..12, day 1..days-in-month, hour 0..23, minute 0..59,
second 0..59) and raises `ValueError` (here: `none`) otherwise; `parse_iso`
catches that `ValueError` and returns `None`. -/
def mkDatetime (y mo d h mi s : Int) : Option DateTime :=
  if 1 ≤ y ∧ y ≤ 9999 ∧ 1 ≤ mo ∧ mo ≤ 12 ∧ 1 ≤ d ∧
      d ≤ (daysInMonth y.toNat mo.toNat : Int) ∧
      0 ≤ h ∧ h ≤ 23 ∧ 0 ≤ mi ∧ mi ≤ 59 ∧ 0 ≤ s ∧ s ≤ 59 then
    some ⟨y.toNat, mo.toNat, d.toNat, h.toNat, mi.toNat, s.toNat, 0⟩
  else none

/-- Python `int(str)` on the slices `parse_iso` extracts: surrounding
whitespace is tolerated, an optional sign, then a non-empty digit run;
anything else raises `ValueError` (here: `none`).  (Underscore digit
separators, which CPython also accepts, do not occur in any input
considered here and are not modelled.) -/
def intOfString (cs : List Char) : Option Int :=
  let t := ((cs.dropWhile isPySpace).reverse.dropWhile isPySpace).reverse
  match t with
  | '+' :: ds =>
    if ds ≠ [] ∧ ds.all Char.isDigit then some (digitsToNat ds) else none
  | '-' :: ds =>
    if ds ≠ [] ∧ ds.all Char.isDigit then some (-(digitsToNat ds : Int)) else none
  | ds => if ds ≠ [] ∧ ds.all Char.isDigit then some (digitsToNat ds) else none

/-- Civil date from a day count relative to 1970-01-01 (proleptic
Gregorian), the arithmetic underlying `datetime.fromtimestamp` in UTC. -/
def civilFromDays (z0 : Int) : Int × Int × Int :=
  let z := z0 + 719468
  let era := Int.ediv z 146097
  let doe := z - era * 146097
  let yoe := Int.ediv (doe - Int.ediv doe 1460 + Int.ediv doe 36524 -
    Int.ediv doe 146096) 365
  let y := yoe + era * 400
  let doy := doe - (365 * yoe + Int.ediv yoe 4 - Int.ediv yoe 100)
  let mp := Int.ediv (5 * doy + 2) 153
  let d := doy - Int.ediv (153 * mp + 2) 5 + 1
  let m := mp + (if mp < 10 then 3 else -9)
  (y + (if m ≤ 2 then 1 else 0), m, d)

/-- `datetime.datetime.fromtimestamp(n, tz=utc).replace(tzinfo=None)`:
epoch seconds to a naive UTC datetime; a year outside `datetime`'s 1..9999
range raises `ValueError` (here: `none`), which `parse_iso` catches. -/
def fromtimestampUTC (n : Int) : Option DateTime :=
  let days := Int.ediv n 86400
  let secs := Int.emod n 86400
  let (y, m, d) := civilFromDays days
  if 1 ≤ y ∧ y ≤ 9999 then
    some ⟨y.toNat, m.toNat, d.toNat, (Int.ediv secs 3600).toNat,
      (Int.emod (Int.ediv secs 60) 60).toNat, (Int.emod secs 60).toNat, 0⟩
  else none

/-- `value[a:b]` for the fixed slices `parse_iso` takes. -/
def pySlice (v : List Char) (a b : Nat) : List Char := (v.drop a).take (b - a)

/-- The string-grammar tail of `parse_iso` (tools.py lines 222-269), entered
once the input is known to be text: length gate 10..33, optional trailing
`Z` strip, `+`-suffix discard with its own 10..28 length gate, the `-`
position checks, then the three shapes `YYYY-MM-DD`, `YYYY-MM-DD HH:MM:SS`
and `YYYY-MM-DD HH:MM`.  Note line 238 verbatim: the length-16 position
test rejects only when index 10 is not `T`/space AND index 13 is not `:`. -/
def parseIsoText (s0 : List Char) : Option DateTime :=
  if 10 ≤ s0.length ∧ s0.length ≤ 33 then
    let s1 := if s0.getLast? = some 'Z' then s0.dropLast else s0
    let go : List Char → Option DateTime := fun v =>
      let n := v.length
      if v.getD 4 ' ' ≠ '-' ∨ v.getD 7 ' ' ≠ '-' then none
      else if n = 10 then
        match intOfString (pySlice v 0 4), intOfString (pySlice v 5 7),
            intOfString (pySlice v 8 10) with
        | some y, some mo, some d => mkDatetime y mo d 0 0 0
        | _, _, _ => none
      else if 16 ≤ n then
        if v.getD 10 ' ' ∉ (['T', ' '] : List Char) ∧ v.getD 13 ' ' ≠ ':' then none
        else if 19 ≤ n ∧ v.getD 16 ' ' = ':' then
          match intOfString (pySlice v 0 4), intOfString (pySlice v 5 7),
              intOfString (pySlice v 8 10), intOfString (pySlice v 11 13),
              intOfString (pySlice v 14 16), intOfString (pySlice v 17 19) with
          | some y, some mo, some d, some h, some mi, some s =>
            mkDatetime y mo d h mi s
          | _, _, _, _, _, _ => none
        else if n = 16 then
          match intOfString (pySlice v 0 4), intOfString (pySlice v 5 7),
              intOfString (pySlice v 8 10), intOfString (pySlice v 11 13),
              intOfString (pySlice v 14 16) with
          | some y, some mo, some d, some h, some mi => mkDatetime y mo d h mi 0
          | _, _, _, _, _ => none
        else none
      else none
    if s1.contains '+' then
      let s2 := s1.takeWhile (fun c => c != '+')
      if ¬(10 ≤ s2.length ∧ s2.length ≤ 28) then none else go s2
    else go s1
  else none

/-- The Python-native inputs `parse_iso` dispatches on.  (The numpy, pandas
and float branches depend on optional third-party objects and are outside
the modelled input universe; no claim exercises them.) -/
inductive PyValue where
  | pyBytes (bs : List Char)
  | pyStr (s : List Char)
  | pyInt (n : Int)
  | pyDatetime (d : DateTime)
  | pyDate (d : Date)
  deriving DecidableEq, Repr

/-- `parse_iso` (tools.py lines 181-271): bytes decode to text, all-digit
text becomes an integer, integers are epoch seconds, a native datetime is
returned with `microsecond=0`, a date is extended with midnight, and other
text goes through the closed string grammar. -/
def parse_iso (value0 : PyValue) : Option DateTime :=
  let value1 : PyValue :=
    match value0 with
    | .pyBytes bs => .pyStr bs
    | v => v
  let value2 : PyValue :=
    match value1 with
    | .pyStr s =>
      if s ≠ [] ∧ s.all Char.isDigit then .pyInt (digitsToNat s) else .pyStr s
    | v => v
  match value2 with
  | .pyInt n => fromtimestampUTC n
  | .pyDatetime d => some { d with microsecond := 0 }
  | .pyDate d => some ⟨d.year, d.month, d.day, 0, 0, 0, 0⟩
  | .pyStr s => parseIsoText s
  | .pyBytes _ => none

/-- `parse_timestamp` (types.py lines 614-618). -/
def parse_timestamp (x : PyValue) : Except String DateTime :=
  match parse_iso x with
  | none => .error "Invalid timestamp."
  | some r => .ok r

/-- C1 evaluation at the failing input: `"2024-01-02X03:04:05"` has length 19
and character `X` at index 10 — neither `T` nor space — so the claimed
position check should reject it; but because index 13 is `:` the conjunction
at tools.py line 238 does not fire and the parser accepts, returning
2024-01-02 03:04:05. -/
theorem iso_bad_separator_accepted :
    ("2024-01-02X03:04:05".toList.getD 10 ' ' = 'X') ∧
    ('X' ≠ 'T' ∧ 'X' ≠ ' ') ∧
    "2024-01-02X03:04:05".toList.length = 19 ∧
    parse_iso (.pyStr "2024-01-02X03:04:05".toList)
      = some ⟨2024, 1, 2, 3, 4, 5, 0⟩ ∧
    parse_iso (.pyStr "2024-01-02X03:04".toList)
      = some ⟨2024, 1, 2, 3, 4, 0, 0⟩ := by
  exact ⟨rfl, by decide, rfl, by decide, by decide⟩

/-- C9: a native datetime input comes back with its microsecond component
replaced by zero — sub-second precision is silently discarded for native
datetime inputs — and `parse_timestamp` inherits exactly this truncation. -/
theorem native_datetime_microseconds_discarded (d : DateTime) :
    parse_iso (.pyDatetime d) = some { d with microsecond := 0 } ∧
    parse_timestamp (.pyDatetime d) = .ok { d with microsecond := 0 } :=
  ⟨rfl, rfl⟩

/-! ## The decimal caster (`DecimalFactory.__call__`, tools.py lines 27-65) -/

/-- Number of digits of a coefficient, as the `decimal` module counts them
(`0` has one digit). -/
def numDigits (n : Nat) : Nat := (Nat.toDigits 10 n).length

/-- A finite `decimal.Decimal` value: coefficient times `10 ^ exponent`. -/
structure Dec where
  c : Int
  e : Int
  deriving DecidableEq, Repr

/-- The rational value a `Dec` denotes. -/
def decVal (x : Dec) : ℚ := (x.c : ℚ) * (10 : ℚ) ^ x.e

/-- Division of a coefficient by a positive power of ten with the
`ROUND_HALF_EVEN` rule the context installs: round to nearest, ties to the
even quotient. -/
def halfEvenDiv (c d : Int) : Int :=
  if 2 * Int.emod c d < d then Int.ediv c d
  else if 2 * Int.emod c d > d then Int.ediv c d + 1
  else if Int.ediv c d % 2 = 0 then Int.ediv c d else Int.ediv c d + 1

/-- `context.create_decimal(value)` (tools.py line 54) on a finite value:
round the coefficient half-to-even down to at most `prec` significant
digits (with the carry case `999.. -> 100..` renormalized). -/
def createDecimal (prec : Nat) (x : Dec) : Dec :=
  let nd := numDigits x.c.natAbs
  if nd ≤ prec then x
  else
    let k := nd - prec
    let c1 := halfEvenDiv x.c (10 ^ k)
    if numDigits c1.natAbs ≤ prec then ⟨c1, x.e + k⟩
    else ⟨Int.ediv c1 10, x.e + k + 1⟩

/-- `decimal_value.quantize(factor, context=context)` with
`factor = 10 ** -s` (tools.py lines 57-61): rescale to exponent `-s`,
rounding half-to-even when digits are dropped; `InvalidOperation` (here:
`none`) when the resulting coefficient would exceed `prec` digits. -/
def quantize (prec : Nat) (x : Dec) (s : Nat) : Option Dec :=
  let targetE : Int := -(s : Int)
  if targetE ≤ x.e then
    let c1 := x.c * 10 ^ (x.e - targetE).toNat
    if numDigits c1.natAbs ≤ prec then some ⟨c1, targetE⟩ else none
  else
    let c1 := halfEvenDiv x.c (10 ^ (targetE - x.e).toNat)
    if numDigits c1.natAbs ≤ prec then some ⟨c1, targetE⟩ else none

/-- `DecimalFactory.__call__` (tools.py lines 27-65) after the input has been
normalized to a decimal value: quantize at `safe_scale = min(self.scale, 28)`
under a half-even context of precision `prec`; on `InvalidOperation` fall
back to the unquantized value instead of raising. -/
def decimalFactoryCall (prec scale : Nat) (x : Dec) : Dec :=
  let dv := createDecimal prec x
  let safe := min scale 28
  match quantize prec dv safe with
  | some q => q
  | none => dv

/-- The mathematical specification of rounding half-to-even at scale `s`:
`r` is an integer multiple of `10 ^ -s` within half an ulp of `v`, and on an
exact tie the chosen multiple is even. -/
def IsHalfEvenRoundingAt (s : Nat) (v r : ℚ) : Prop :=
  ∃ n : ℤ, r = (n : ℚ) * (10 : ℚ) ^ (-(s : ℤ)) ∧
    |v - r| ≤ (10 : ℚ) ^ (-(s : ℤ)) / 2 ∧
    (|v - r| = (10 : ℚ) ^ (-(s : ℤ)) / 2 → Even n)

/-- `halfEvenDiv` is within half a divisor of exact, ties to even. -/
theorem halfEvenDiv_spec (c d : Int) (hd : 0 < d) :
    2 * |c - halfEvenDiv c d * d| ≤ d ∧
    (2 * |c - halfEvenDiv c d * d| = d → Even (halfEvenDiv c d)) := by
  have h0 : 0 ≤ Int.emod c d := Int.emod_nonneg c (ne_of_gt hd)
  have h1 : Int.emod c d < d := Int.emod_lt_of_pos c hd
  have hc : d * Int.ediv c d + Int.emod c d = c := Int.ediv_add_emod c d
  unfold halfEvenDiv
  split_ifs with h2 h3 h4
  · have he : c - Int.ediv c d * d = Int.emod c d := by
      rw [mul_comm]; linarith
    rw [he, abs_of_nonneg h0]
    exact ⟨by linarith, fun heq => absurd heq (by omega)⟩
  · have he : c - (Int.ediv c d + 1) * d = Int.emod c d - d := by
      rw [add_mul, one_mul, mul_comm (Int.ediv c d) d]; linarith
    rw [he, abs_of_nonpos (by linarith)]
    exact ⟨by linarith, fun heq => absurd heq (by omega)⟩
  · have he : c - Int.ediv c d * d = Int.emod c d := by
      rw [mul_comm]; linarith
    rw [he, abs_of_nonneg h0]
    exact ⟨by linarith, fun _ => Int.even_iff.mpr h4⟩
  · have he : c - (Int.ediv c d + 1) * d = Int.emod c d - d := by
      rw [add_mul, one_mul, mul_comm (Int.ediv c d) d]; linarith
    rw [he, abs_of_nonpos (by linarith)]
    refine ⟨by linarith, fun _ => ?_⟩
    have hq2 : Int.ediv c d % 2 = 1 := by omega
    exact Int.even_iff.mpr (by omega)

/-- C7: the decimal caster quantizes at the declared scale capped at 28 —
when quantization succeeds, the result has exponent `-min(scale, 28)` and is
the half-to-even rounding of the context-created decimal value at that scale
— and when quantization fails it returns the unrounded decimal value instead
of raising. -/
theorem decimal_factory_rounds_half_even (prec scale : Nat) (x : Dec) :
    (quantize prec (createDecimal prec x) (min scale 28) = none →
      decimalFactoryCall prec scale x = createDecimal prec x) ∧
    (∀ q, quantize prec (createDecimal prec x) (min scale 28) = some q →
      decimalFactoryCall prec scale x = q ∧
      q.e = -((min scale 28 : Nat) : Int) ∧
      IsHalfEvenRoundingAt (min scale 28)
        (decVal (createDecimal prec x)) (decVal q)) := by
  constructor
  · intro h
    simp only [decimalFactoryCall]
    rw [h]
  · intro q hq
    have hcall : decimalFactoryCall prec scale x = q := by
      simp only [decimalFactoryCall]
      rw [hq]
    refine ⟨hcall, ?_, ?_⟩
    · simp only [quantize] at hq
      split_ifs at hq
      all_goals exact (congrArg Dec.e (Option.some.inj hq)).symm
    · simp only [quantize] at hq
      have hten : ((10 : ℚ)) ≠ 0 := by norm_num
      split_ifs at hq with h1 h2 h2
      · -- exact rescale upward: value unchanged
        obtain rfl : (⟨(createDecimal prec x).c *
            10 ^ (((createDecimal prec x).e - -((min scale 28 : Nat) : Int)).toNat),
            -((min scale 28 : Nat) : Int)⟩ : Dec) = q := Option.some.inj hq
        set dv := createDecimal prec x with hdv
        set s : Nat := min scale 28 with hs
        set k : Nat := (dv.e - -(s : Int)).toNat with hk
        have hkz : (k : Int) = dv.e + s := by
          rw [hk]
          rw [Int.toNat_of_nonneg (by omega)]
          ring
        refine ⟨dv.c * 10 ^ k, ?_, ?_, ?_⟩
        · simp only [decVal]
        · have hveq : decVal dv =
              decVal ⟨dv.c * 10 ^ k, -(s : Int)⟩ := by
            simp only [decVal]
            have : (10 : ℚ) ^ dv.e = (10 : ℚ) ^ (-(s : Int)) * (10 : ℚ) ^ (k : Int) := by
              rw [← zpow_add₀ hten]
              congr 1
              omega
            rw [this]
            push_cast [zpow_natCast]
            ring
          rw [← hveq, sub_self, abs_zero]
          positivity
        · intro habs
          have hveq : decVal dv =
              decVal ⟨dv.c * 10 ^ k, -(s : Int)⟩ := by
            simp only [decVal]
            have : (10 : ℚ) ^ dv.e = (10 : ℚ) ^ (-(s : Int)) * (10 : ℚ) ^ (k : Int) := by
              rw [← zpow_add₀ hten]
              congr 1
              omega
            rw [this]
            push_cast [zpow_natCast]
            ring
          rw [← hveq, sub_self, abs_zero] at habs
          have : (0 : ℚ) < (10 : ℚ) ^ (-(s : Int)) / 2 := by positivity
          exact absurd habs.symm (by linarith)
      · -- rounding downward: half-even within half an ulp
        obtain rfl : (⟨halfEvenDiv (createDecimal prec x).c
            (10 ^ ((-((min scale 28 : Nat) : Int) - (createDecimal prec x).e).toNat)),
            -((min scale 28 : Nat) : Int)⟩ : Dec) = q := Option.some.inj hq
        set dv := createDecimal prec x with hdv
        set s : Nat := min scale 28 with hs
        set k : Nat := (-(s : Int) - dv.e).toNat with hk
        have hkz : (k : Int) = -(s : Int) - dv.e := by
          rw [hk]
          exact Int.toNat_of_nonneg (by omega)
        have hd : (0 : Int) < 10 ^ k := by positivity
        obtain ⟨hle, htie⟩ := halfEvenDiv_spec dv.c (10 ^ k) hd
        set c1 : Int := halfEvenDiv dv.c (10 ^ k) with hc1
        have hpow : ((10 : ℚ)) ^ (-(s : Int)) =
            (((10 : Int) ^ k : Int) : ℚ) * (10 : ℚ) ^ dv.e := by
          push_cast
          rw [← zpow_natCast (10 : ℚ) k, ← zpow_add₀ hten]
          congr 1
          omega
        have hdiff : decVal dv - decVal ⟨c1, -(s : Int)⟩ =
            ((dv.c - c1 * 10 ^ k : Int) : ℚ) * (10 : ℚ) ^ dv.e := by
          simp only [decVal]
          rw [hpow]
          push_cast
          ring
        have hpe : (0 : ℚ) < (10 : ℚ) ^ dv.e := by positivity
        have habs : |decVal dv - decVal ⟨c1, -(s : Int)⟩| =
            ((|dv.c - c1 * 10 ^ k| : Int) : ℚ) * (10 : ℚ) ^ dv.e := by
          rw [hdiff, abs_mul, abs_of_pos hpe, Int.cast_abs]
        refine ⟨c1, by simp [decVal], ?_, ?_⟩
        · rw [habs, hpow]
          have hleZ : |dv.c - c1 * 10 ^ k| * 2 ≤ 10 ^ k := by linarith
          have hleQ : ((|dv.c - c1 * 10 ^ k| : Int) : ℚ) * 2 ≤
              (((10 : Int) ^ k : Int) : ℚ) := by exact_mod_cast hleZ
          calc ((|dv.c - c1 * 10 ^ k| : Int) : ℚ) * (10 : ℚ) ^ dv.e
              ≤ (((10 : Int) ^ k : Int) : ℚ) / 2 * (10 : ℚ) ^ dv.e := by
                apply mul_le_mul_of_nonneg_right _ (le_of_lt hpe)
                linarith
            _ = (((10 : Int) ^ k : Int) : ℚ) * (10 : ℚ) ^ dv.e / 2 := by ring
        · intro heq
          have e1 : ((|dv.c - c1 * 10 ^ k| : Int) : ℚ) * (10 : ℚ) ^ dv.e * 2
              = (((10 : Int) ^ k : Int) : ℚ) * (10 : ℚ) ^ dv.e := by
            rw [habs, hpow] at heq
            linarith [heq]
          have e2 : ((|dv.c - c1 * 10 ^ k| : Int) : ℚ) * 2 =
              (((10 : Int) ^ k : Int) : ℚ) :=
            mul_right_cancel₀ (ne_of_gt hpe) (by linear_combination e1)
          have e3 : ((2 * |dv.c - c1 * 10 ^ k| : Int) : ℚ) =
              (((10 : Int) ^ k : Int) : ℚ) := by
            push_cast
            push_cast at e2
            linarith
          exact htie (by exact_mod_cast e3)

/-- C7 witness: casting `8.700` (coefficient 8700, exponent −3) at scale 2
and precision 38 quantizes successfully to 8.70 (coefficient 870,
exponent −2), a half-even rounding at scale 2. -/
theorem decimal_factory_rounds_half_even_witness :
    decimalFactoryCall 38 2 ⟨8700, -3⟩ = ⟨870, -2⟩ ∧
    IsHalfEvenRoundingAt (min 2 28) (decVal (createDecimal 38 ⟨8700, -3⟩))
      (decVal ⟨870, -2⟩) := by
  have h := (decimal_factory_rounds_half_even 38 2 ⟨8700, -3⟩).2 ⟨870, -2⟩ (by decide)
  exact ⟨h.1, h.2.2⟩

/-! ## Column encodings.

The five encoding strategies live in `ossis/schema.py`, which is not part of
the source snapshot (only their tests are); they are modelled here from the
spec's §3 "Encoding payloads" and §4.5 contract. -/

/-- Modelled from the spec: the Constant encoding of `ossis/schema.py`
(file absent from the snapshot) — one stored value broadcast to `length`
rows; `none` is the null value. -/
structure ConstantColumn (α : Type) where
  value : Option α
  length : Nat

/-- Modelled from the spec: `materialize` for Constant — the stored value
repeated `length` times. -/
def ConstantColumn.materialize {α : Type} (col : ConstantColumn α) :
    List (Option α) :=
  List.replicate col.length col.value

/-- Modelled from the spec: the Function encoding of `ossis/schema.py`
(file absent from the snapshot) — a zero-argument generator plus a length. -/
structure FunctionColumn (α : Type) where
  binding : Unit → Option α
  length : Nat

/-- Modelled from the spec: `materialize` for Function — the generator is
invoked `length` times, fresh on each materialize. -/
def FunctionColumn.materialize {α : Type} (col : FunctionColumn α) :
    List (Option α) :=
  (List.range col.length).map (fun _ => col.binding ())

/-- Modelled from the spec: the Dictionary encoding of `ossis/schema.py`
(file absent from the snapshot) — a distinct-values table in first-occurrence
order plus a `length`-sized index array. -/
structure DictionaryColumn (α : Type) where
  values : List (Option α)
  encoding : List Nat
  length : Nat

/-- Position of a value in the dictionary table, if present. -/
def tableIdx {α : Type} [DecidableEq α] (table : List α) (v : α) : Option Nat :=
  match table with
  | [] => none
  | t :: ts => if t = v then some 0 else (tableIdx ts v).map (· + 1)

/-- One left-to-right dictionary-building pass: per value, reuse its table
slot or append it and use the new slot. -/
def dictBuild {α : Type} [DecidableEq α] (table : List (Option α)) :
    List (Option α) → List (Option α) × List Nat
  | [] => (table, [])
  | v :: vs =>
    match tableIdx table v with
    | some i => ((dictBuild table vs).1, i :: (dictBuild table vs).2)
    | none =>
      ((dictBuild (table ++ [v]) vs).1,
       table.length :: (dictBuild (table ++ [v]) vs).2)

/-- Modelled from the spec: Dictionary construction deduplicates values in
first-occurrence order and builds the parallel index array. -/
def DictionaryColumn.construct {α : Type} [DecidableEq α]
    (vs : List (Option α)) : DictionaryColumn α :=
  ⟨(dictBuild [] vs).1, (dictBuild [] vs).2, vs.length⟩

/-- Modelled from the spec: `materialize(i) = table[index[i]]`. -/
def DictionaryColumn.materialize {α : Type} (col : DictionaryColumn α) :
    List (Option α) :=
  col.encoding.map (fun i => col.values.getD i none)

/-- Modelled from the spec: the RunLength encoding of `ossis/schema.py`
(file absent from the snapshot) — (value, run-length) pairs in order. -/
structure RLEColumn (α : Type) where
  values : List (Option α)
  lengths : List Nat
  length : Nat

/-- Merge adjacent equal values into (value, run-length) pairs. -/
def rlePairs {α : Type} [DecidableEq α] : List (Option α) → List (Option α × Nat)
  | [] => []
  | x :: xs =>
    match rlePairs xs with
    | [] => [(x, 1)]
    | (y, n) :: rest =>
      if x = y then (y, n + 1) :: rest else (x, 1) :: (y, n) :: rest

/-- Modelled from the spec: RunLength construction merges adjacent equal
values; run lengths sum to the declared length. -/
def RLEColumn.construct {α : Type} [DecidableEq α] (vs : List (Option α)) :
    RLEColumn α :=
  ⟨(rlePairs vs).map Prod.fst, (rlePairs vs).map Prod.snd, vs.length⟩

/-- Modelled from the spec: `materialize` for RunLength expands each run. -/
def RLEColumn.materialize {α : Type} (col : RLEColumn α) : List (Option α) :=
  ((col.values.zip col.lengths).map (fun p => List.replicate p.2 p.1)).flatten

/-- Modelled from the spec: the Sparse encoding of `ossis/schema.py`
(file absent from the snapshot) — non-null values plus their strictly
ascending absolute positions. -/
structure SparseColumn (α : Type) where
  values : List α
  indices : List Nat
  length : Nat

/-- The (position, value) pairs of the non-null entries, positions counted
from `i0`. -/
def sparsePairs {α : Type} (i0 : Nat) : List (Option α) → List (Nat × α)
  | [] => []
  | none :: rest => sparsePairs (i0 + 1) rest
  | some v :: rest => (i0, v) :: sparsePairs (i0 + 1) rest

/-- Modelled from the spec: Sparse construction records only non-null values
with their ascending positions. -/
def SparseColumn.construct {α : Type} (vs : List (Option α)) : SparseColumn α :=
  ⟨(sparsePairs 0 vs).map Prod.snd, (sparsePairs 0 vs).map Prod.fst, vs.length⟩

/-- First value recorded at position `i`, if any. -/
def assocFind {α : Type} (i : Nat) : List (Nat × α) → Option α
  | [] => none
  | (j, v) :: rest => if j = i then some v else assocFind i rest

/-- Modelled from the spec: `materialize` for Sparse — stored positions get
their value, every other position is null. -/
def SparseColumn.materialize {α : Type} (col : SparseColumn α) :
    List (Option α) :=
  (List.range col.length).map (fun i => assocFind i (col.indices.zip col.values))

/-- Zipping the two projections of a pair list recovers the list. -/
theorem zip_map_fst_snd {β γ : Type} (l : List (β × γ)) :
    (l.map Prod.fst).zip (l.map Prod.snd) = l := by
  induction l with
  | nil => rfl
  | cons hd tl ih => simp [ih]

/-- The dictionary table only ever grows by appending. -/
theorem dictBuild_fst_ext {α : Type} [DecidableEq α] :
    ∀ (vs table : List (Option α)), ∃ ext, (dictBuild table vs).1 = table ++ ext := by
  intro vs
  induction vs with
  | nil => exact fun table => ⟨[], by simp [dictBuild]⟩
  | cons v vs ih =>
    intro table
    cases htb : tableIdx table v with
    | some i =>
      obtain ⟨ext, hext⟩ := ih table
      exact ⟨ext, by simp [dictBuild, htb, hext]⟩
    | none =>
      obtain ⟨ext, hext⟩ := ih (table ++ [v])
      exact ⟨[v] ++ ext, by simp [dictBuild, htb, hext]⟩

/-- A hit in the table lookup names a position holding the value. -/
theorem tableIdx_getD {α : Type} [DecidableEq α] :
    ∀ {table : List (Option α)} {v : Option α} {i : Nat},
      tableIdx table v = some i → table.getD i none = v := by
  intro table
  induction table with
  | nil => intro v i h; exact Option.noConfusion h
  | cons t ts ih =>
    intro v i h
    by_cases htv : t = v
    · simp only [tableIdx, if_pos htv] at h
      obtain rfl : (0 : Nat) = i := Option.some.inj h
      simpa using htv
    · simp only [tableIdx, if_neg htv] at h
      cases hts : tableIdx ts v with
      | none => rw [hts] at h; exact Option.noConfusion h
      | some j =>
        rw [hts] at h
        obtain rfl : j + 1 = i := Option.some.inj h
        simpa using ih hts

/-- A hit in the table lookup is in range. -/
theorem tableIdx_lt {α : Type} [DecidableEq α] :
    ∀ {table : List (Option α)} {v : Option α} {i : Nat},
      tableIdx table v = some i → i < table.length := by
  intro table
  induction table with
  | nil => intro v i h; exact Option.noConfusion h
  | cons t ts ih =>
    intro v i h
    by_cases htv : t = v
    · simp only [tableIdx, if_pos htv] at h
      obtain rfl : (0 : Nat) = i := Option.some.inj h
      simp
    · simp only [tableIdx, if_neg htv] at h
      cases hts : tableIdx ts v with
      | none => rw [hts] at h; exact Option.noConfusion h
      | some j =>
        rw [hts] at h
        obtain rfl : j + 1 = i := Option.some.inj h
        simpa using ih hts

/-- Dictionary round-trip: decoding the index array through the final table
reproduces the input, whatever table the pass started from. -/
theorem dictBuild_materialize {α : Type} [DecidableEq α] :
    ∀ (vs table : List (Option α)),
      ((dictBuild table vs).2).map
        (fun i => ((dictBuild table vs).1).getD i none) = vs := by
  intro vs
  induction vs with
  | nil => intro table; rfl
  | cons v vs ih =>
    intro table
    cases htb : tableIdx table v with
    | some i =>
      obtain ⟨ext, hext⟩ := dictBuild_fst_ext vs table
      have hi : i < table.length := tableIdx_lt htb
      have hhead : ((dictBuild table vs).1).getD i none = v := by
        rw [hext, List.getD_append _ _ _ _ hi]
        exact tableIdx_getD htb
      simp only [dictBuild, htb, List.map_cons, hhead, ih table]
    | none =>
      obtain ⟨ext, hext⟩ := dictBuild_fst_ext vs (table ++ [v])
      have hhead : ((dictBuild (table ++ [v]) vs).1).getD table.length none = v := by
        rw [hext, List.append_assoc, List.getD_append_right _ _ _ _ (le_refl _)]
        simp
      simp only [dictBuild, htb, List.map_cons, hhead, ih (table ++ [v])]

/-- Run-length round-trip: expanding the merged runs reproduces the input. -/
theorem rlePairs_flatten {α : Type} [DecidableEq α] (vs : List (Option α)) :
    ((rlePairs vs).map (fun p => List.replicate p.2 p.1)).flatten = vs := by
  induction vs with
  | nil => rfl
  | cons x xs ih =>
    cases hr : rlePairs xs with
    | nil =>
      rw [hr] at ih
      simp only [List.map_nil, List.flatten_nil] at ih
      simp [rlePairs, hr, ← ih]
    | cons hd tl =>
      obtain ⟨y, n⟩ := hd
      rw [hr] at ih
      by_cases hxy : x = y
      · subst hxy
        have hre : rlePairs (x :: xs) = (x, n + 1) :: tl := by
          simp [rlePairs, hr]
        simp only [List.map_cons, List.flatten_cons] at ih
        rw [hre, List.map_cons, List.flatten_cons, List.replicate_succ,
          List.cons_append, ih]
      · have hre : rlePairs (x :: xs) = (x, 1) :: (y, n) :: tl := by
          simp [rlePairs, hr, hxy]
        simp only [List.map_cons, List.flatten_cons] at ih
        rw [hre, List.map_cons, List.flatten_cons, List.replicate_one,
          List.singleton_append, List.map_cons, List.flatten_cons, ih]

/-- Positions below the offset are never recorded by `sparsePairs`. -/
theorem assocFind_sparsePairs_lt {α : Type} :
    ∀ (vs : List (Option α)) (i0 j : Nat), j < i0 →
      assocFind j (sparsePairs i0 vs) = none := by
  intro vs
  induction vs with
  | nil => intro i0 j _; rfl
  | cons v rest ih =>
    intro i0 j hj
    cases v with
    | none => exact ih (i0 + 1) j (by omega)
    | some a =>
      simp only [sparsePairs, assocFind, if_neg (by omega : ¬i0 = j)]
      exact ih (i0 + 1) j (by omega)

/-- Sparse round-trip with an arbitrary starting offset. -/
theorem sparsePairs_materialize {α : Type} :
    ∀ (vs : List (Option α)) (i0 : Nat),
      (List.range' i0 vs.length).map (fun i => assocFind i (sparsePairs i0 vs))
        = vs := by
  intro vs
  induction vs with
  | nil => intro i0; rfl
  | cons v rest ih =>
    intro i0
    have hmem : ∀ i ∈ List.range' (i0 + 1) rest.length, i0 + 1 ≤ i := by
      intro i hi
      rw [List.mem_range'] at hi
      obtain ⟨d, _, rfl⟩ := hi
      omega
    have hr : List.range' i0 (rest.length + 1)
        = i0 :: List.range' (i0 + 1) rest.length := rfl
    cases v with
    | some a =>
      have hhead : assocFind i0 (sparsePairs i0 (some a :: rest)) = some a := by
        simp [sparsePairs, assocFind]
      have htail : (List.range' (i0 + 1) rest.length).map
          (fun i => assocFind i (sparsePairs i0 (some a :: rest)))
            = (List.range' (i0 + 1) rest.length).map
          (fun i => assocFind i (sparsePairs (i0 + 1) rest)) := by
        apply List.map_congr_left
        intro i hi
        have hlt : i0 + 1 ≤ i := hmem i hi
        have hne : ¬ i0 = i := by omega
        simp only [sparsePairs, assocFind, if_neg hne]
      rw [List.length_cons, hr, List.map_cons, hhead, htail, ih (i0 + 1)]
    | none =>
      have hhead : assocFind i0 (sparsePairs (i0 + 1) rest) = none :=
        assocFind_sparsePairs_lt rest (i0 + 1) i0 (by omega)
      simp only [List.length_cons, hr, List.map_cons, sparsePairs, hhead,
        ih (i0 + 1)]

/-- C8 (spec-modelled): each of the five encodings satisfies the
materialization contract — Dictionary, RunLength and Sparse reproduce any
input sequence (hence in particular all-null, all-equal and no-duplicate
ones) in original order and at the declared length, and Constant/Function,
which represent the all-equal and all-null sequences, broadcast their stored
value or generator result to the declared length. -/
theorem encodings_roundtrip {α : Type} [DecidableEq α]
    (vs : List (Option α)) (v : Option α) (g : Unit → Option α) (n : Nat) :
    (DictionaryColumn.construct vs).materialize = vs ∧
    (DictionaryColumn.construct vs).length = vs.length ∧
    (RLEColumn.construct vs).materialize = vs ∧
    (RLEColumn.construct vs).length = vs.length ∧
    (SparseColumn.construct vs).materialize = vs ∧
    (SparseColumn.construct vs).length = vs.length ∧
    (ConstantColumn.mk v n).materialize = List.replicate n v ∧
    (FunctionColumn.mk g n).materialize = List.replicate n (g ()) := by
  refine ⟨?_, rfl, ?_, rfl, ?_, rfl, rfl, ?_⟩
  · exact dictBuild_materialize vs []
  · show ((((rlePairs vs).map Prod.fst).zip ((rlePairs vs).map Prod.snd)).map
        (fun p => List.replicate p.2 p.1)).flatten = vs
    rw [zip_map_fst_snd]
    exact rlePairs_flatten vs
  · show (List.range vs.length).map
        (fun i => assocFind i
          (((sparsePairs 0 vs).map Prod.fst).zip ((sparsePairs 0 vs).map Prod.snd)))
        = vs
    rw [zip_map_fst_snd, List.range_eq_range']
    exact sparsePairs_materialize vs 0
  · show (List.range n).map (fun _ => g ()) = List.replicate n (g ())
    induction n with
    | zero => rfl
    | succ m ihm =>
      rw [List.range_succ, List.map_append, ihm, List.replicate_succ']
      rfl

end Ossis
